import Mathlib

/-!
Verification development for listdupes (a duplicate-file finder).

The definitions below are a shallow embedding of `src/listdupes.py`
(version 6.0.0-beta.7).  Filesystem paths are modelled as lists of name
segments, the filesystem itself as an environment assigning to each path
the outcome of opening and reading it, and wall-clock timestamps as
integers supplied by that environment.  Python exceptions are modelled as
explicit `Option`/`Except` results.  Python `set`s are modelled as
duplicate-free lists built by insert-if-absent; the program sorts every
set before output, so set ordering is unobservable.
-/

namespace Listdupes

/-- A filesystem path, as its list of name segments relative to some root.
The empty list plays the role of `pathlib.Path(".")`. -/
abbrev FsPath := List String

/-- Join a list of strings with a separator. -/
def joinSep (sep : String) : List String → String
  | [] => ""
  | [s] => s
  | s :: rest => s ++ sep ++ joinSep sep rest

/-- Model of `str(path)` on a `pathlib.Path`. -/
def pathStr (p : FsPath) : String :=
  match p with
  | [] => "."
  | segs => joinSep "/" segs

/-- An entry of one of the suppressed-error sets:
`(file_name, error_text, timestamp)`, as built by the handlers in
`_checksum_file_and_store_outcome` (timestamps are modelled as integers). -/
abbrev ErrorRecord := String × String × Int

/-- The `os_errors` dictionary (keys `permission_errors`,
`file_not_found_errors`, `misc_errors`), each mapped to a set of
`ErrorRecord`s.  Sets are modelled as duplicate-free lists. -/
structure OsErrors where
  permission_errors : List ErrorRecord
  file_not_found_errors : List ErrorRecord
  misc_errors : List ErrorRecord
deriving DecidableEq, Repr

/-- The dictionary literal of `get_checksum_input_values`
(lines 830-834): all three error sets empty. -/
def emptyOsErrors : OsErrors := ⟨[], [], []⟩

/-- Model of Python `set.add`: insert the element if it is not already a
member (insertion position is unobservable, the sets are sorted before
output). -/
def addToSet {α : Type} [DecidableEq α] (x : α) (l : List α) : List α :=
  if x ∈ l then l else l ++ [x]

/-- Model of Python's `x or default` on `str`-or-`None` values such as
`e.filename or str(file_path)`: `None` and the empty string are falsy. -/
def pyOr (x : Option String) (default : String) : String :=
  match x with
  | none => default
  | some "" => default
  | some s => s

/-- One bit round of the CRC-32 update (polynomial 0xEDB88320). -/
def crc32UpdateBit (c : Nat) : Nat :=
  if c % 2 = 1 then Nat.xor (c / 2) 0xEDB88320 else c / 2

/-- One byte of the CRC-32 update: xor the byte in, then eight bit rounds. -/
def crc32UpdateByte (c b : Nat) : Nat :=
  crc32UpdateBit^[8] (Nat.xor c (b % 256))

/-- Model of `zlib.crc32(data, value)` (imported as `checksummer`):
CRC-32 of `data` continued from the running checksum `value`;
`checksummer [] 0 = 0`, matching `zlib.crc32(b"")`. -/
def checksummer (data : List Nat) (value : Nat) : Nat :=
  Nat.xor (data.foldl crc32UpdateByte (Nat.xor (value % 2 ^ 32) 0xFFFFFFFF)) 0xFFFFFFFF

/-- Worker for `_chunk_file`; `fuel` bounds the number of chunks (any
value of at least the data's length works, since every chunk consumes at
least one byte). -/
def chunkGo (chunk_size : Nat) : Nat → List Nat → List (List Nat)
  | _, [] => []
  | 0, _ :: _ => []
  | fuel + 1, d :: ds =>
      match chunk_size with
      | 0 => []
      | n + 1 => ((d :: ds).take (n + 1)) :: chunkGo chunk_size fuel ((d :: ds).drop (n + 1))

/-- Model of `_chunk_file` (lines 860-866): the successive non-empty
chunks `file.read(chunk_size)` yields from the file's content; `read(0)`
returns `b""` at once, so chunk size zero yields nothing. -/
def _chunk_file (data : List Nat) (chunk_size : Nat) : List (List Nat) :=
  chunkGo chunk_size data.length data

/-- The fold of lines 916-924 of `_checksum_file_and_store_outcome`:
an empty chunk stream yields `checksummer(b"")`, otherwise the first
chunk seeds the checksum and later chunks are folded into it. -/
def checksumChunks (chunks : List (List Nat)) : Nat :=
  match chunks with
  | [] => checksummer [] 0
  | first_chunk :: rest => rest.foldl (fun checksum chunk => checksummer chunk checksum) (checksummer first_chunk 0)

/-- Outcome of `open(file_path, mode="rb")` and draining the file, as the
environment presents it to the engine: the file's byte content on
success, or which `OSError` subclass the attempt raises.  `filename` and
`strerror` model the exception's attributes (possibly `None`), `time`
models `datetime.datetime.now().astimezone()` observed at that failure. -/
inductive OpenOutcome where
  | fileData (data : List Nat)
  | isADirectory
  | permissionError (filename : Option String) (strerror : Option String) (time : Int)
  | fileNotFoundError (filename : Option String) (strerror : Option String) (time : Int)
  | miscOSError (filename : Option String) (strerror : Option String) (time : Int)
deriving DecidableEq

/-- The filesystem environment a run executes against: the open/read
outcome of every path, and `path.exists()` for every path. -/
structure Env where
  fs : FsPath → OpenOutcome
  pathExistsAt : FsPath → Bool

/-- Model of `pathlib.Path.parents`: ancestors from the immediate parent
up to `.` (the empty segment list).  `Path(".")` has no parents. -/
def parents (p : FsPath) : List FsPath :=
  (List.range p.length).map (fun i => p.take (p.length - 1 - i))

/-- The `PreviousFileNotFoundError` exception (lines 495-510):
`filename` is the parent found missing, `filename2` the
(per its docstring) first parent of it found to exist, if any. -/
structure PreviousFileNotFoundError where
  message : String
  filename : FsPath
  filename2 : Option FsPath
deriving DecidableEq

/-- One step of `_check_path_for_disconnection`'s walk over the parents
(lines 880-884): the accumulator carries
`(missing_parent_path, longest_existing_parent)`. -/
def disconnectionStep (env : Env) (acc : Option FsPath × Option FsPath)
    (parent_path : FsPath) : Option FsPath × Option FsPath :=
  if env.pathExistsAt parent_path = false ∧ acc.1 = none then
    (some parent_path, acc.2)
  else if env.pathExistsAt parent_path = true ∧ acc.1 ≠ none then
    (acc.1, some parent_path)
  else
    acc

/-- Model of `_check_path_for_disconnection` (lines 869-891): walk the
path's parents; remember the first parent that does not exist, and keep
overwriting `longest_existing_parent` with every existing parent seen
after that; raise (`some`) when a missing parent was found. -/
def _check_path_for_disconnection (env : Env) (file_path : FsPath) :
    Option PreviousFileNotFoundError :=
  let st := (parents file_path).foldl (disconnectionStep env) (none, none)
  match st with
  | (some missing_parent_path, longest_existing_parent) =>
      let message := "A previously located file couldn't be located."
      let message :=
        match longest_existing_parent with
        | some lep => message ++ " Nothing beyond " ++ pathStr lep ++ " could be found."
        | none => message
      some ⟨message, missing_parent_path, longest_existing_parent⟩
  | (none, _) => none

/-- Model of `_checksum_file_and_store_outcome` (lines 894-946): checksum
one file, returning the updated results container, the updated errors
container, and the `PreviousFileNotFoundError` the call raises, if any.
A directory is skipped silently; permission, not-found and other OS
failures are recorded in their category's set; a not-found failure
additionally runs the disconnection check, whose exception propagates. -/
def _checksum_file_and_store_outcome (env : Env) (file_path : FsPath)
    (results_container : List (FsPath × Nat)) (errors_container : OsErrors) :
    List (FsPath × Nat) × OsErrors × Option PreviousFileNotFoundError :=
  match env.fs file_path with
  | .fileData data =>
      let checksum := checksumChunks (_chunk_file data 524288)
      (results_container ++ [(file_path, checksum)], errors_container, none)
  | .isADirectory =>
      (results_container, errors_container, none)
  | .permissionError fn err t =>
      let rec_ : ErrorRecord := (pyOr fn (pathStr file_path), pyOr err "", t)
      (results_container,
        { errors_container with
            permission_errors := addToSet rec_ errors_container.permission_errors },
        none)
  | .fileNotFoundError fn err t =>
      let rec_ : ErrorRecord := (pyOr fn (pathStr file_path), pyOr err "", t)
      (results_container,
        { errors_container with
            file_not_found_errors := addToSet rec_ errors_container.file_not_found_errors },
        _check_path_for_disconnection env file_path)
  | .miscOSError fn err t =>
      let rec_ : ErrorRecord := (pyOr fn (pathStr file_path), pyOr err "", t)
      (results_container,
        { errors_container with
            misc_errors := addToSet rec_ errors_container.misc_errors },
        none)

/-- Mutable state of the `for` loop of `checksum_files`: the two
accumulating containers and `place`, the index of the last iteration
completed this run (`place = index` runs only after
`_checksum_file_and_store_outcome` returns). -/
structure LoopState where
  pas : List (FsPath × Nat)
  os_errors : OsErrors
  place : Nat
deriving DecidableEq

/-- An exception escaping the checksum loop: an external
`KeyboardInterrupt`, or the `PreviousFileNotFoundError` raised by the
disconnection check. -/
inductive LoopExn where
  | keyboardInterrupt
  | previousFileNotFound (e : PreviousFileNotFoundError)
deriving DecidableEq

/-- The `for` loop of `checksum_files` (lines 990-992).  `intr` models
cancellation: `some n` means a `KeyboardInterrupt` arrives at the start
of iteration `n + 1`; `none` means the run is never interrupted.  The
loop stops at the first exception, leaving `place` at the count of
iterations completed. -/
def checksumLoop (env : Env) : Option Nat → List FsPath → LoopState → LoopState × Option LoopExn
  | _, [], s => (s, none)
  | some 0, _ :: _, s => (s, some .keyboardInterrupt)
  | intr, file_path :: rest, s =>
      let out := _checksum_file_and_store_outcome env file_path s.pas s.os_errors
      match out.2.2 with
      | some e => (⟨out.1, out.2.1, s.place⟩, some (.previousFileNotFound e))
      | none => checksumLoop env (intr.map (· - 1)) rest ⟨out.1, out.2.1, s.place + 1⟩

/-- Insertion of one element into a list sorted by the boolean
comparison `le`. -/
def insertLe {α : Type} (le : α → α → Bool) (x : α) : List α → List α
  | [] => [x]
  | y :: ys => if le x y then x :: y :: ys else y :: insertLe le x ys

/-- Insertion sort by the boolean comparison `le`; models Python's
`list.sort()` / `sorted()` (with `sort_key = None`, an ascending sort). -/
def sortLe {α : Type} (le : α → α → Bool) (l : List α) : List α :=
  l.foldr (insertLe le) []

/-- Strict lexicographic comparison of character lists by code point. -/
def charsLtB : List Char → List Char → Bool
  | [], [] => false
  | [], _ :: _ => true
  | _ :: _, [] => false
  | a :: as, b :: bs => if a = b then charsLtB as bs else decide (a.toNat < b.toNat)

/-- Strict comparison on strings by code points — Python's `str` order. -/
def strLtB (s t : String) : Bool := charsLtB s.data t.data

/-- Strict lexicographic comparison of paths by segments, modelling how
`pathlib.Path` objects order. -/
def pathLtB : FsPath → FsPath → Bool
  | [], [] => false
  | [], _ :: _ => true
  | _ :: _, [] => false
  | a :: as, b :: bs => if a = b then pathLtB as bs else strLtB a b

/-- Ascending comparison on `(path, checksum)` pairs, as Python compares
such tuples. -/
def pasLeB (x y : FsPath × Nat) : Bool :=
  if x.1 = y.1 then decide (x.2 ≤ y.2) else pathLtB x.1 y.1

/-- Ascending comparison on error records, as Python compares
`(str, str, datetime)` tuples. -/
def recLeB (x y : ErrorRecord) : Bool :=
  if x.1 = y.1 then
    (if x.2.1 = y.2.1 then decide (x.2.2 ≤ y.2.2) else strLtB x.2.1 y.2.1)
  else strLtB x.1 y.1

/-- Line 998: `{k: sorted(v) for k, v in os_errors.items()}`. -/
def sortOsErrors (e : OsErrors) : OsErrors :=
  ⟨sortLe recLeB e.permission_errors,
   sortLe recLeB e.file_not_found_errors,
   sortLe recLeB e.misc_errors⟩

/-- Everything observable about one call of `checksum_files`:
the accumulated containers, the single persistence-callback invocation
made in the `finally` block (when a writer was supplied), the function's
return value (`none` when an exception propagates instead), and the
exception that propagates to the caller, if any. -/
structure ChecksumFilesRun where
  paths_and_sums : List (FsPath × Nat)
  os_errors : OsErrors
  writer_call : Option (List (FsPath × Nat) × OsErrors × Nat)
  ret : Option (List (FsPath × Nat) × OsErrors)
  raised : Option LoopExn
deriving DecidableEq

/-- Model of `checksum_files` (lines 949-999).  The loop body runs under
`try`; the `finally` block invokes the writer (when one is supplied) with
the accumulated results, the accumulated errors and
`place_state + place`, whether the loop completed, was interrupted, or
raised; only after a normal completion are the results and each error
set sorted and returned.  `checksum_files_and_show_progress`
(lines 1002-1036) differs only in terminal output and is covered by the
same model.  `writer : Bool` records whether a writer was supplied. -/
def checksum_files (env : Env) (intr : Option Nat) (paths : List FsPath)
    (paths_and_sums_state : List (FsPath × Nat)) (os_errors_state : OsErrors)
    (place_state : Nat) (writer : Bool) : ChecksumFilesRun :=
  let run := checksumLoop env intr paths ⟨paths_and_sums_state, os_errors_state, 0⟩
  let s := run.1
  let writer_call := if writer then some (s.pas, s.os_errors, place_state + s.place) else none
  match run.2 with
  | some e => ⟨s.pas, s.os_errors, writer_call, none, some e⟩
  | none => ⟨s.pas, s.os_errors, writer_call, some (sortLe pasLeB s.pas, sortOsErrors s.os_errors), none⟩

/-- A container of error records at its Python runtime type.  The
`os_errors` dict values are `set`s on a fresh run (the literal of
lines 830-834), but after a resume they are the plain `list`s that
`_Cache.read_items_from_file` rebuilt (lines 197-200).  Only a set has
the `add` method the engine calls; on a list, `add` raises
`AttributeError`. -/
inductive ErrContainer where
  | pySet (elems : List ErrorRecord)
  | pyList (elems : List ErrorRecord)
deriving DecidableEq

/-- Model of `container.add(rec)`: insert into a set; a list has no
`add` attribute, so the call raises `AttributeError` (`none`). -/
def containerAdd (rec_ : ErrorRecord) : ErrContainer → Option ErrContainer
  | .pySet elems => some (.pySet (addToSet rec_ elems))
  | .pyList _ => none

/-- The records a container holds, whatever its runtime type. -/
def containerElems : ErrContainer → List ErrorRecord
  | .pySet elems => elems
  | .pyList elems => elems

/-- The `os_errors` dictionary with its values at their runtime type. -/
structure OsErrorsRT where
  permission_errors : ErrContainer
  file_not_found_errors : ErrContainer
  misc_errors : ErrContainer
deriving DecidableEq

/-- Error records packaged as the fresh-run dict of sets. -/
def setsOf (e : OsErrors) : OsErrorsRT :=
  ⟨.pySet e.permission_errors, .pySet e.file_not_found_errors, .pySet e.misc_errors⟩

/-- Error records packaged as the dict of lists that
`read_items_from_file` hands back on a resumed run. -/
def listsOf (e : OsErrors) : OsErrorsRT :=
  ⟨.pyList e.permission_errors, .pyList e.file_not_found_errors, .pyList e.misc_errors⟩

/-- An exception escaping the checksum loop when the containers carry
their runtime type: an external `KeyboardInterrupt`, the disconnection
check's `PreviousFileNotFoundError`, or the `AttributeError` from
calling `add` on a list container. -/
inductive RunExn where
  | keyboardInterrupt
  | previousFileNotFound (e : PreviousFileNotFoundError)
  | attributeError
deriving DecidableEq

/-- `LoopExn` embeds into `RunExn`. -/
def loopExnToRunExn : LoopExn → RunExn
  | .keyboardInterrupt => .keyboardInterrupt
  | .previousFileNotFound e => .previousFileNotFound e

/-- Model of `_checksum_file_and_store_outcome` (lines 894-946) with the
error containers carried at their Python runtime type: each handler
calls `errors_container[...].add(...)`, which on a list container raises
`AttributeError` instead of recording — in the not-found handler this
happens before the disconnection check runs.
`_checksum_file_and_store_outcome` above is the specialization of this
to set containers (the fresh-run case); `perFile_rt_on_sets` proves the
two agree there. -/
def _checksum_file_and_store_outcome_rt (env : Env) (file_path : FsPath)
    (results_container : List (FsPath × Nat)) (errors_container : OsErrorsRT) :
    List (FsPath × Nat) × OsErrorsRT × Option RunExn :=
  match env.fs file_path with
  | .fileData data =>
      let checksum := checksumChunks (_chunk_file data 524288)
      (results_container ++ [(file_path, checksum)], errors_container, none)
  | .isADirectory =>
      (results_container, errors_container, none)
  | .permissionError fn err t =>
      let rec_ : ErrorRecord := (pyOr fn (pathStr file_path), pyOr err "", t)
      match containerAdd rec_ errors_container.permission_errors with
      | some c => (results_container, { errors_container with permission_errors := c }, none)
      | none => (results_container, errors_container, some .attributeError)
  | .fileNotFoundError fn err t =>
      let rec_ : ErrorRecord := (pyOr fn (pathStr file_path), pyOr err "", t)
      match containerAdd rec_ errors_container.file_not_found_errors with
      | some c =>
          (results_container, { errors_container with file_not_found_errors := c },
           (_check_path_for_disconnection env file_path).map RunExn.previousFileNotFound)
      | none => (results_container, errors_container, some .attributeError)
  | .miscOSError fn err t =>
      let rec_ : ErrorRecord := (pyOr fn (pathStr file_path), pyOr err "", t)
      match containerAdd rec_ errors_container.misc_errors with
      | some c => (results_container, { errors_container with misc_errors := c }, none)
      | none => (results_container, errors_container, some .attributeError)

/-- The checksum loop's state with runtime-typed containers. -/
structure LoopStateRT where
  pas : List (FsPath × Nat)
  os_errors : OsErrorsRT
  place : Nat
deriving DecidableEq

/-- The `for` loop of `checksum_files` over runtime-typed containers;
as `checksumLoop`, but an `AttributeError` from a list container also
stops the loop and propagates. -/
def checksumLoopRT (env : Env) : Option Nat → List FsPath → LoopStateRT → LoopStateRT × Option RunExn
  | _, [], s => (s, none)
  | some 0, _ :: _, s => (s, some .keyboardInterrupt)
  | intr, file_path :: rest, s =>
      let out := _checksum_file_and_store_outcome_rt env file_path s.pas s.os_errors
      match out.2.2 with
      | some e => (⟨out.1, out.2.1, s.place⟩, some e)
      | none => checksumLoopRT env (intr.map (· - 1)) rest ⟨out.1, out.2.1, s.place + 1⟩

/-- Line 998 over a runtime-typed dict: Python's `sorted(v)` accepts
sets and lists alike and returns a sorted list of the records. -/
def sortOsErrorsRT (e : OsErrorsRT) : OsErrors :=
  ⟨sortLe recLeB (containerElems e.permission_errors),
   sortLe recLeB (containerElems e.file_not_found_errors),
   sortLe recLeB (containerElems e.misc_errors)⟩

/-- Everything observable about one `checksum_files` call whose error
containers carry their runtime type; fields as in `ChecksumFilesRun`. -/
structure ChecksumFilesRunRT where
  paths_and_sums : List (FsPath × Nat)
  os_errors : OsErrorsRT
  writer_call : Option (List (FsPath × Nat) × OsErrorsRT × Nat)
  ret : Option (List (FsPath × Nat) × OsErrors)
  raised : Option RunExn
deriving DecidableEq

/-- Model of `checksum_files` (lines 949-999) over runtime-typed error
containers: the `finally` block invokes the writer whatever stopped the
loop — an `AttributeError` included — and the exception then propagates;
only a normal completion returns the sorted results and errors. -/
def checksum_files_rt (env : Env) (intr : Option Nat) (paths : List FsPath)
    (paths_and_sums_state : List (FsPath × Nat)) (os_errors_state : OsErrorsRT)
    (place_state : Nat) (writer : Bool) : ChecksumFilesRunRT :=
  let run := checksumLoopRT env intr paths ⟨paths_and_sums_state, os_errors_state, 0⟩
  let s := run.1
  let writer_call := if writer then some (s.pas, s.os_errors, place_state + s.place) else none
  match run.2 with
  | some e => ⟨s.pas, s.os_errors, writer_call, none, some e⟩
  | none => ⟨s.pas, s.os_errors, writer_call, some (sortLe pasLeB s.pas, sortOsErrorsRT s.os_errors), none⟩

/-- The cache fields `get_checksum_input_values` consumes on a resumed
run: `place`, `paths_and_sums` and the error records of `os_errors`, as
`read_items_from_file` reconstructed them. -/
structure CacheSeed where
  place : Nat
  paths_and_sums : List (FsPath × Nat)
  os_errors : OsErrors

/-- Model of `get_checksum_input_values` (lines 790-857) when reading
from an archive: with an existing cache (`some`), the engine's path list
is the archive's `sub_paths` sliced from index `place` onward and the
containers are seeded from the cache — the `os_errors` handed over are
the dict of plain *lists* `read_items_from_file` built (lines 197-200),
although the function's own docstring (lines 816-819) and the engine's
(lines 963-967) promise sets; with no cache file (`none`), the whole
`sub_paths` list with the fresh dict-of-sets literal and `place = 0`.
Returns `(paths, paths_and_sums, os_errors, place)`. -/
def get_checksum_input_values (sub_paths : List FsPath) (cache : Option CacheSeed) :
    List FsPath × List (FsPath × Nat) × OsErrorsRT × Nat :=
  match cache with
  | some c => (sub_paths.drop c.place, c.paths_and_sums, listsOf c.os_errors, c.place)
  | none => (sub_paths, [], setsOf emptyOsErrors, 0)

/-- A filesystem entry as the scanner sees it: a plain file, or a
directory with its children. -/
inductive FsEntry where
  | file (name : String)
  | dir (name : String) (children : List FsEntry)

mutual
/-- All descendant paths of one entry (the entry itself and, for a
directory, everything below it), relative to the entry's parent, each
tagged with whether it is a directory.  This is the candidate set
`pathlib`'s `**` recursion enumerates: it descends into every
directory, dot-named directories included. -/
def descendOne : FsEntry → List (FsPath × Bool)
  | .file n => [([n], false)]
  | .dir n cs => ([n], true) :: (descendMany cs).map (fun q => (n :: q.1, q.2))

/-- `descendOne` over a list of sibling entries, in order. -/
def descendMany : List FsEntry → List (FsPath × Bool)
  | [] => []
  | e :: rest => descendOne e ++ descendMany rest
end

/-- Whether a relative path matches the glob pattern `**/[!.]*`:
`**` matches the (possibly empty, possibly dot-named) chain of ancestor
segments, and the final segment must match `[!.]*` — at least one
character, the first not a dot.  No other segment is constrained. -/
def globFinalMatches (p : FsPath) : Bool :=
  match p.getLast? with
  | none => false
  | some n =>
      match n.data with
      | [] => false
      | c :: _ => !(c == '.')

/-- Model of `_find_sub_paths` (lines 689-697):
`starting_folder.glob("**/[!.]*")` over the starting folder's children —
every descendant entry (directories included) whose final name segment
does not begin with a dot. -/
def _find_sub_paths (starting_folder : List FsEntry) : List FsPath :=
  ((descendMany starting_folder).filter (fun q => globFinalMatches q.1)).map (fun q => q.1)

/-- The duplicates mapping built by `locate_dupes`: an insertion-ordered
dictionary from a representative path to the set of its duplicates
(sets as duplicate-free lists). -/
abbrev Dupes := List (FsPath × List FsPath)

/-- Model of `Dupes.not_in_values` (lines 375-380): `true` iff the test
value occurs in none of the mapping's value collections. -/
def not_in_values (dupes : Dupes) (test_value : FsPath) : Bool :=
  dupes.all (fun g => !(decide (test_value ∈ g.2)))

/-- Model of `dupes[key].add(v)` on the auto-vivifying
`defaultdict(set)`: update the existing group keyed by `key`, or append
a fresh group at the end (Python dicts preserve insertion order). -/
def dupesAdd (dupes : Dupes) (key v : FsPath) : Dupes :=
  if dupes.any (fun g => decide (g.1 = key)) then
    dupes.map (fun g => if g.1 = key then (g.1, addToSet v g.2) else g)
  else
    dupes ++ [(key, addToSet v [])]

/-- The inner loop of `locate_dupes` (lines 1058-1061): scan the entries
after the searched one; on a checksum match, if the searched path is not
already recorded as somebody's duplicate, add the later path to the
searched path's group.  The guard re-reads the mapping as it grows. -/
def locateInner (dupes : Dupes) (path_being_searched : FsPath)
    (checksum_being_searched : Nat) (later : List (FsPath × Nat)) : Dupes :=
  later.foldl
    (fun d pc =>
      if (pc.2 == checksum_being_searched) && not_in_values d path_being_searched then
        dupesAdd d path_being_searched pc.1
      else d)
    dupes

/-- The outer loop of `locate_dupes` (lines 1055-1061): each entry in
turn is searched against the entries after it. -/
def locateOuter : List (FsPath × Nat) → Dupes → Dupes
  | [], dupes => dupes
  | e :: rest, dupes => locateOuter rest (locateInner dupes e.1 e.2 rest)

/-- Model of `Dupes.sort_values` (lines 382-385): convert each group's
set to an ascending list. -/
def sort_values (dupes : Dupes) : Dupes :=
  dupes.map (fun g => (g.1, sortLe pathLtB g.2))

/-- Model of `locate_dupes` (lines 1039-1063) on the checksummed
`paths_and_sums` list: build the duplicates mapping, then sort each
group's members.  `locate_dupes_and_show_progress` (lines 1066-1088)
differs only in terminal output and is covered by the same model. -/
def locate_dupes (paths_and_sums : List (FsPath × Nat)) : Dupes :=
  sort_values (locateOuter paths_and_sums [])

/-- Whether `sep` is a prefix of `l`. -/
def charsHasPrefixB : List Char → List Char → Bool
  | [], _ => true
  | _ :: _, [] => false
  | a :: as, b :: bs => (a = b : Bool) && charsHasPrefixB as bs

/-- Worker for `pySplitOn`: split `l` at every occurrence of the
non-empty separator `sep`, scanning left to right; `fuel` bounds the
recursion (the input's length suffices, as every step consumes at least
one character). -/
def splitGo (sep : List Char) : Nat → List Char → List Char → List (List Char)
  | _, [], acc => [acc.reverse]
  | 0, _ :: _, acc => [acc.reverse]
  | fuel + 1, c :: cs, acc =>
      if charsHasPrefixB sep (c :: cs) then
        acc.reverse :: splitGo sep fuel ((c :: cs).drop sep.length) []
      else
        splitGo sep fuel cs (c :: acc)

/-- Model of Python `s.split(sep)` for a non-empty separator. -/
def pySplitOn (s sep : String) : List String :=
  match sep.data with
  | [] => [s]
  | d :: ds => (splitGo (d :: ds) s.data.length s.data []).map (fun cs => String.mk cs)

/-- Model of Python `s.split(sep, maxsplit)`: at most `maxsplit` splits;
the unsplit remainder (with its separators restored) is the last piece. -/
def pySplitMax (s sep : String) (maxsplit : Nat) : List String :=
  let parts := pySplitOn s sep
  if parts.length ≤ maxsplit + 1 then parts
  else parts.take maxsplit ++ [joinSep sep (parts.drop maxsplit)]

/-- The part of `s` after the last occurrence of `sep`, or `none` when
`sep` does not occur: the information `read_possible_values` takes from
Python's `s.rpartition(sep)` (it keeps `post_seperator` only when the
returned separator is non-empty, i.e. was found). -/
def pyRPartitionAfter (s sep : String) : Option String :=
  let parts := pySplitOn s sep
  if parts.length ≤ 1 then none else parts.getLast?

/-- Model of Python `float(s)` on the timestamp strings of this model,
where timestamps are integers: the digits of a nonnegative decimal
integer parse to its value, anything else raises `ValueError` (`none`).
(`datetime.fromtimestamp`, applied right after, is the identity here.) -/
def pyFloat? (s : String) : Option Int :=
  let digit? : Char → Option Nat := fun c =>
    if 48 ≤ c.toNat ∧ c.toNat ≤ 57 then some (c.toNat - 48) else none
  match s.data with
  | [] => none
  | ds =>
      (ds.foldl (fun acc c => match acc, digit? c with
        | some n, some d => some (n * 10 + d)
        | _, _ => none) (some 0)).map Int.ofNat

/-- Python exceptions crossing the persistence layer's frontiers:
`ValueError` (raised by `read_values_shared_by_an_archive_and_cache` and
by failed timestamp parses) and the app's own `_ValidationError`. -/
inductive PyExn where
  | valueError (message : String)
  | validationError (message : String)
deriving DecidableEq

/-- Line 87's message. -/
def sharedValuesErrorMessage : String :=
  "The file didn't contain one or more valid values."

/-- Lines 170-174: the stale-cache message naming the remedy. -/
def staleCacheMessage : String :=
  "The cache file is holding work which was done on another archive.\n" ++
  "Please save that work by moving the cache file to another location\n" ++
  "or simply delete the cache if you no longer need it."

/-- Lines 205-212: the corrupted-cache message naming the remedy. -/
def corruptedCacheMessage : String :=
  "The contents of the cache file can no longer be verified.\n" ++
  "Most likely it was accidentally overwritten by another app.\n" ++
  "You may wish to check its contents to learn more, or simply" ++
  " delete the file.\n" ++
  "Once it's removed you can rerun your last command to" ++
  " restart the work."

/-- Model of `_PersistantData.read_possible_values` (lines 45-68) on the
file's text: read the first 8192 characters, split on `","` with
`maxsplit = number_of_values`, require at least one comma, drop the last
piece, and keep, for each remaining piece, what follows its last
`": "`. -/
def read_possible_values (fileText : String) (number_of_values : Nat) : List String :=
  let start_of_file := String.mk (fileText.data.take 8192)
  let split_strings := pySplitMax start_of_file "," number_of_values
  let at_least_one_comma_found := split_strings.length > 1
  let split_strings := split_strings.dropLast
  if at_least_one_comma_found then
    split_strings.filterMap (fun string => pyRPartitionAfter string ": ")
  else []

/-- Model of `read_values_shared_by_an_archive_and_cache` (lines 70-88):
the prefix read must produce exactly two values (tuple unpacking raises
`ValueError` otherwise), the first must parse as a timestamp, and the
second has its surrounding JSON quotes stripped (`possible_path[1:-1]`);
every failure raises the one `ValueError` of line 87. -/
def read_values_shared_by_an_archive_and_cache (fileText : String) :
    Except PyExn (Int × String) :=
  match read_possible_values fileText 2 with
  | [possible_float, possible_path] =>
      match pyFloat? possible_float with
      | none => .error (.valueError sharedValuesErrorMessage)
      | some creation_time =>
          .ok (creation_time, String.mk ((possible_path.data.drop 1).dropLast))
  | _ => .error (.valueError sharedValuesErrorMessage)

/-- Model of `_Cache.read_and_set_shared_creation_and_start_values`
(lines 168-182).  Note the `except _ValidationError` clause is dead
code: the inner read raises only `ValueError`, which therefore
propagates out uncaught; the clause is kept here faithfully.  When a
validation value is supplied (the archive's creation time) and the
cache's differs, the stale-cache `_ValidationError` is raised. -/
def cacheReadAndSetSharedValues (fileText : String) (validation_value : Option Int) :
    Except PyExn (Int × String) :=
  match read_values_shared_by_an_archive_and_cache fileText with
  | .error (.validationError _) => .error (.validationError staleCacheMessage)
  | .error e => .error e
  | .ok (archive_creation_time, archived_starting_path) =>
      match validation_value with
      | some v =>
          if archive_creation_time ≠ v then .error (.validationError staleCacheMessage)
          else .ok (archive_creation_time, archived_starting_path)
      | none => .ok (archive_creation_time, archived_starting_path)

/-- The JSON document of a cache file, §6 of the design: keys
`archive_creation_time`, `archived_starting_path`, `place`, `os_errors`
(three categories of `[path, message, iso-timestamp]` triples) and
`paths_and_sums`.  Iso timestamps are carried as strings, as in the
file. -/
structure CacheJson where
  archive_creation_time : Int
  archived_starting_path : String
  place : Nat
  permission_errors : List (String × String × String)
  file_not_found_errors : List (String × String × String)
  misc_errors : List (String × String × String)
  paths_and_sums : List (String × Int)
deriving DecidableEq

/-- A cache file on disk, as both reads see it: its raw text (consumed
by the bounded prefix read) and the outcome of `json.load` plus the
required-key lookups on the full text (`none` models
`json.JSONDecodeError` or `KeyError`; `json.load` is an external
builtin, modelled by its result). -/
structure CacheFileModel where
  text : String
  parsed : Option CacheJson

/-- Model of `datetime.datetime.fromisoformat` on this model's
timestamp strings, mirroring `pyFloat?`; a failed parse raises
`ValueError` (`none`). -/
def pyFromIsoformat? (s : String) : Option Int := pyFloat? s

/-- The fully reconstructed cache contents, as `read_items_from_file`
leaves them. -/
structure CacheItems where
  archive_creation_time : Int
  archived_starting_path : String
  place : Nat
  permission_errors : List ErrorRecord
  file_not_found_errors : List ErrorRecord
  misc_errors : List ErrorRecord
  paths_and_sums : List (String × Int)
deriving DecidableEq

/-- Parse one category's error list back into records; a timestamp that
fails `fromisoformat` raises `ValueError` (line 199, uncaught there). -/
def parseErrorList (l : List (String × String × String)) :
    Except PyExn (List ErrorRecord) :=
  l.foldr
    (fun x acc =>
      match acc with
      | .error e => .error e
      | .ok rest =>
          match pyFromIsoformat? x.2.2 with
          | none => .error (.valueError ("Invalid isoformat string: " ++ x.2.2))
          | some t => .ok ((x.1, x.2.1, t) :: rest))
    (.ok [])

/-- Model of `_Cache.read_items_from_file` (lines 184-214): a document
that `json.load` cannot parse, or that lacks a required key, raises the
corrupted-cache `_ValidationError`; otherwise the timestamps and error
lists are reconstructed (a bad iso timestamp raising an uncaught
`ValueError`). -/
def cacheReadItemsFromFile (file : CacheFileModel) : Except PyExn CacheItems :=
  match file.parsed with
  | none => .error (.validationError corruptedCacheMessage)
  | some j =>
      match parseErrorList j.permission_errors,
            parseErrorList j.file_not_found_errors,
            parseErrorList j.misc_errors with
      | .ok pe, .ok fe, .ok me =>
          .ok ⟨j.archive_creation_time, j.archived_starting_path, j.place,
               pe, fe, me, j.paths_and_sums⟩
      | .error e, _, _ => .error e
      | _, .error e, _ => .error e
      | _, _, .error e => .error e

/-- Model of `isoformat` on this model's integer timestamps (inverse of
`pyFromIsoformat?` on the values the model produces). -/
def pyIsoformat (t : Int) : String := toString t

/-- Model of `_Cache.write_to_file` (lines 216-246): with no checksums
the call returns early and nothing is written (`none`); otherwise the
cache document written over the file, with everything made JSON-safe. -/
def cacheWriteToFile (archive_creation_time : Int) (archived_starting_path : String)
    (paths_and_sums : List (FsPath × Nat)) (os_errors : OsErrors) (place : Nat) :
    Option CacheJson :=
  if paths_and_sums.isEmpty then none
  else
    let serialize := fun (r : ErrorRecord) => (r.1, r.2.1, pyIsoformat r.2.2)
    some
      { archive_creation_time := archive_creation_time
        archived_starting_path := archived_starting_path
        place := place
        permission_errors := os_errors.permission_errors.map serialize
        file_not_found_errors := os_errors.file_not_found_errors.map serialize
        misc_errors := os_errors.misc_errors.map serialize
        paths_and_sums := paths_and_sums.map (fun pc => (pathStr pc.1, pc.2)) }

/-- The archive's contents after a successful `read_items_from_file`. -/
structure ArchiveItems where
  creation_time : Int
  starting_path : String
  sub_paths : List FsPath

/-- What the `read_archive` branch of `_do_pre_checksumming_tasks` hands
back to `main`: an early exit carrying `(final_message, return_code)`
(main returns it at once, so no fingerprinting runs), the archive/cache
pair to proceed with, or an exception other than `_ValidationError`
escaping the function uncaught. -/
inductive PreChecksumOutcome where
  | earlyExit (final_message : String) (return_code : Nat)
  | proceed (cacheShared : Int × String) (cachedItems : Option CacheItems)
  | uncaught (e : PyExn)
deriving DecidableEq

/-- Model of the `read_archive` branch of `_do_pre_checksumming_tasks`
(lines 754-773), entered after the archive itself was read successfully:
if a cache file exists, its prefix is validated against the archive's
creation time and then the cache is read in full, a `_ValidationError`
from either step becoming an early exit with its message and code 1;
with no cache file, the shared values are seeded from the archive. -/
def preChecksumReadArchiveBranch (archive : ArchiveItems)
    (cacheFile : Option CacheFileModel) : PreChecksumOutcome :=
  match cacheFile with
  | none => .proceed (archive.creation_time, archive.starting_path) none
  | some file =>
      match cacheReadAndSetSharedValues file.text (some archive.creation_time) with
      | .error (.validationError m) => .earlyExit m 1
      | .error e => .uncaught e
      | .ok shared =>
          match cacheReadItemsFromFile file with
          | .error (.validationError m) => .earlyExit m 1
          | .error e => .uncaught e
          | .ok items => .proceed shared (some items)

/-- Whether `_checksum_file_and_store_outcome` raises on this path
(decided by the environment alone: the containers do not influence it). -/
def pathRaises (env : Env) (p : FsPath) : Bool :=
  ((_checksum_file_and_store_outcome env p [] emptyOsErrors).2.2).isSome

/-! ### Example environments and inputs used by concrete theorems -/

/-- A directory `.h` holding a file `a`, next to an empty directory `d`. -/
def scanRoot0 : List FsEntry := [.dir ".h" [.file "a"], .dir "d" []]

/-- An environment where opening `m/f` raises `FileNotFoundError` and
only the root (`.`) still exists, so the disconnection check fires. -/
def envDisc : Env :=
  { fs := fun p => if p = ["m", "f"] then .fileNotFoundError none none 7 else .isADirectory
    pathExistsAt := fun q => decide (q = []) }

/-- An environment where `a/b` is missing while both `a` and the root
still exist: the disconnection walk sees an existing parent both nearer
than and farther than the missing one. -/
def envGap : Env :=
  { fs := fun _ => .isADirectory
    pathExistsAt := fun q => decide (q = ["a"] ∨ q = []) }

/-- An environment where opening `p` raises `PermissionError` and
opening `q` raises `FileNotFoundError` with every parent still there. -/
def envPerm : Env :=
  { fs := fun p =>
      if p = ["p"] then .permissionError (some "p") (some "denied") 3
      else if p = ["q"] then .fileNotFoundError none none 4
      else .fileData []
    pathExistsAt := fun _ => true }

/-- Three files: `e` and `f` empty, `g` a directory. -/
def envRun : Env :=
  { fs := fun p =>
      if p = ["e"] then .fileData []
      else if p = ["f"] then .fileData [1, 2]
      else .isADirectory
    pathExistsAt := fun _ => true }

/-- An archive of two entries: `a` an empty readable file, `b`
permission-denied (every ancestor existing). -/
def envResume : Env :=
  { fs := fun p =>
      if p = ["a"] then .fileData []
      else if p = ["b"] then .permissionError (some "b") (some "denied") 9
      else .isADirectory
    pathExistsAt := fun _ => true }

/-- An archive whose creation time is 200. -/
def archive200 : ArchiveItems := ⟨200, "/x", []⟩

/-- A cache file whose prefix parses to creation time 100 and starting
path `/x` (the model of a well-formed cache document for time 100). -/
def cacheText100 : String :=
  "\x7b\"archive_creation_time\": 100, \"archived_starting_path\": \"/x\", \"place\": 0\x7d"

/-- `v` occurs in none of the mapping's value collections (the property
`Dupes.not_in_values` decides). -/
def NotVal (d : Dupes) (v : FsPath) : Prop := ∀ g ∈ d, v ∉ g.2

/-- No path occurs in the value collections of two different groups. -/
def GroupsDisjoint (d : Dupes) : Prop :=
  d.Pairwise (fun g h => ∀ v ∈ g.2, v ∉ h.2)

/-- The paths of the entries of `later` carrying checksum `c`, in
order: the candidates the inner loop adds for a key of checksum `c`. -/
def matchesOf (c : Nat) (later : List (FsPath × Nat)) : List FsPath :=
  (later.filter (fun e => e.2 == c)).map Prod.fst

/-- Fold `addToSet` over a list of candidates, starting from `vs`. -/
def addAll (vs : List FsPath) (qs : List FsPath) : List FsPath :=
  qs.foldl (fun s q => addToSet q s) vs

/-! ### Loop lemmas shared by several claims -/

lemma checksumLoop_nil (env : Env) (intr : Option Nat) (s : LoopState) :
    checksumLoop env intr [] s = (s, none) := by
  cases intr with
  | none => rfl
  | some n => cases n <;> rfl

lemma checksumLoop_cons (env : Env) (p : FsPath) (rest : List FsPath) (s : LoopState) :
    checksumLoop env none (p :: rest) s =
      (match (_checksum_file_and_store_outcome env p s.pas s.os_errors).2.2 with
       | some e =>
           (⟨(_checksum_file_and_store_outcome env p s.pas s.os_errors).1,
             (_checksum_file_and_store_outcome env p s.pas s.os_errors).2.1, s.place⟩,
            some (.previousFileNotFound e))
       | none =>
           checksumLoop env none rest
             ⟨(_checksum_file_and_store_outcome env p s.pas s.os_errors).1,
              (_checksum_file_and_store_outcome env p s.pas s.os_errors).2.1, s.place + 1⟩) := rfl

/-- The loop's containers and outcome do not depend on the starting
`place`; the final `place` just shifts with it. -/
lemma checksumLoop_place_shift (env : Env) (l : List FsPath) :
    ∀ (pas : List (FsPath × Nat)) (errs : OsErrors) (pl : Nat),
      checksumLoop env none l ⟨pas, errs, pl⟩ =
        (⟨(checksumLoop env none l ⟨pas, errs, 0⟩).1.pas,
          (checksumLoop env none l ⟨pas, errs, 0⟩).1.os_errors,
          pl + (checksumLoop env none l ⟨pas, errs, 0⟩).1.place⟩,
         (checksumLoop env none l ⟨pas, errs, 0⟩).2) := by
  induction l with
  | nil => intro pas errs pl; simp [checksumLoop_nil]
  | cons p rest ih =>
      intro pas errs pl
      rw [checksumLoop_cons, checksumLoop_cons]
      cases h : (_checksum_file_and_store_outcome env p pas errs).2.2 with
      | some e => simp
      | none =>
          simp only
          rw [ih _ _ (pl + 1), ih _ _ (0 + 1)]
          simp [Nat.add_assoc, Nat.add_comm, Nat.add_left_comm]

/-- Running the loop over `l1 ++ l2` is running it over `l1` and, when
no exception stops it, continuing over `l2` from the reached state. -/
lemma checksumLoop_append (env : Env) (l1 l2 : List FsPath) :
    ∀ s : LoopState,
      checksumLoop env none (l1 ++ l2) s =
        (match checksumLoop env none l1 s with
         | (s', none) => checksumLoop env none l2 s'
         | (s', some e) => (s', some e)) := by
  induction l1 with
  | nil => intro s; simp [checksumLoop_nil]
  | cons p rest ih =>
      intro s
      rw [List.cons_append, checksumLoop_cons, checksumLoop_cons]
      cases h : (_checksum_file_and_store_outcome env p s.pas s.os_errors).2.2 with
      | some e => simp
      | none => simp only; rw [ih]

/-- `checksum_files` invokes the writer exactly once, with the loop's
accumulated containers and `place_state` plus the loop's progress,
whatever the loop's outcome, and it propagates the loop's exception. -/
lemma checksum_files_writer_and_raised (env : Env) (intr : Option Nat) (paths : List FsPath)
    (pas : List (FsPath × Nat)) (errs : OsErrors) (place_state : Nat) :
    (checksum_files env intr paths pas errs place_state true).writer_call
      = some ((checksumLoop env intr paths ⟨pas, errs, 0⟩).1.pas,
              (checksumLoop env intr paths ⟨pas, errs, 0⟩).1.os_errors,
              place_state + (checksumLoop env intr paths ⟨pas, errs, 0⟩).1.place)
    ∧ (checksum_files env intr paths pas errs place_state true).raised
      = (checksumLoop env intr paths ⟨pas, errs, 0⟩).2 := by
  cases hr : checksumLoop env intr paths ⟨pas, errs, 0⟩ with
  | mk s e => cases e <;> simp [checksum_files, hr]

/-- The containers do not influence whether the per-file operation
raises. -/
lemma perFile_raised_eq (env : Env) (p : FsPath) (res : List (FsPath × Nat)) (errs : OsErrors) :
    (_checksum_file_and_store_outcome env p res errs).2.2
      = (_checksum_file_and_store_outcome env p [] emptyOsErrors).2.2 := by
  cases h : env.fs p <;> simp [_checksum_file_and_store_outcome, h]

/-- The loop's progress is the length of the maximal prefix of paths
whose per-file operation returns without raising. -/
lemma checksumLoop_place_count (env : Env) (l : List FsPath) :
    ∀ (pas : List (FsPath × Nat)) (errs : OsErrors),
      (checksumLoop env none l ⟨pas, errs, 0⟩).1.place
        = (l.takeWhile (fun p => !(pathRaises env p))).length := by
  induction l with
  | nil => intro pas errs; simp [checksumLoop_nil]
  | cons p rest ih =>
      intro pas errs
      rw [checksumLoop_cons]
      cases h : (_checksum_file_and_store_outcome env p pas errs).2.2 with
      | some e =>
          have hp : pathRaises env p = true := by
            unfold pathRaises
            rw [← perFile_raised_eq env p pas errs, h]
            rfl
          simp [List.takeWhile_cons, hp]
      | none =>
          have hp : pathRaises env p = false := by
            unfold pathRaises
            rw [← perFile_raised_eq env p pas errs, h]
            rfl
          simp only
          rw [checksumLoop_place_shift env rest _ _ 1, ih]
          simp [List.takeWhile_cons, hp, Nat.add_comm]

/-! ### Claims -/

/-- C9: a cache write whose `paths_and_sums` result set is empty is a
no-op — nothing is written, whatever the errors and the place. -/
theorem C9_empty_write_noop (archive_creation_time : Int) (archived_starting_path : String)
    (os_errors : OsErrors) (place : Nat) :
    cacheWriteToFile archive_creation_time archived_starting_path [] os_errors place = none := rfl

/-- C3: with a writer supplied, `checksum_files` invokes it on every
exit path of the loop — normal completion, disconnection failure, or
interruption at any point — with the accumulated results, the
accumulated errors, and `place_state` plus this run's progress; the
invocation is recorded in the run's outcome together with the exception,
which still propagates to the caller unchanged. -/
theorem C3_writer_called_on_every_exit (env : Env) (intr : Option Nat) (paths : List FsPath)
    (paths_and_sums_state : List (FsPath × Nat)) (os_errors_state : OsErrors)
    (place_state : Nat) :
    (checksum_files env intr paths paths_and_sums_state os_errors_state place_state true).writer_call
      = some ((checksumLoop env intr paths ⟨paths_and_sums_state, os_errors_state, 0⟩).1.pas,
              (checksumLoop env intr paths ⟨paths_and_sums_state, os_errors_state, 0⟩).1.os_errors,
              place_state + (checksumLoop env intr paths ⟨paths_and_sums_state, os_errors_state, 0⟩).1.place)
    ∧ (checksum_files env intr paths paths_and_sums_state os_errors_state place_state true).raised
      = (checksumLoop env intr paths ⟨paths_and_sums_state, os_errors_state, 0⟩).2 :=
  checksum_files_writer_and_raised env intr paths paths_and_sums_state os_errors_state place_state

/-- C10 (counterexample): on the single-path list `[m/f]` whose entry
raises the disconnection failure, the path is enumerated and its
not-found error is recorded, yet the writer receives
`place_state + 0 = 5`, not `place_state` plus the count of enumerated
paths (`5 + 1`): an enumerated path whose error was recorded did not
advance the count. -/
theorem C10_counterexample :
    (checksum_files envDisc none [["m", "f"]] [] emptyOsErrors 5 true).writer_call
      = some ([], ⟨[], [("m/f", "", 7)], []⟩, 5)
    ∧ (checksum_files envDisc none [["m", "f"]] [] emptyOsErrors 5 true).raised
      = some (.previousFileNotFound
          ⟨"A previously located file couldn't be located. Nothing beyond . could be found.",
           ["m"], some []⟩)
    ∧ (5 : Nat) ≠ 5 + [["m", "f"]].length := by
  refine ⟨by decide, by decide, by decide⟩

/-- C10 (amended): the place handed to the writer is `place_state` plus
the number of paths processed to completion this run — directory skips
and recorded (non-raising) failures advance the count, a path whose
processing raises does not — i.e. the length of the maximal prefix of
non-raising paths. -/
theorem C10_place_counts_completed_paths (env : Env) (paths : List FsPath)
    (pas : List (FsPath × Nat)) (errs : OsErrors) (place_state : Nat) :
    (checksum_files env none paths pas errs place_state true).writer_call
      = some ((checksumLoop env none paths ⟨pas, errs, 0⟩).1.pas,
              (checksumLoop env none paths ⟨pas, errs, 0⟩).1.os_errors,
              place_state + (paths.takeWhile (fun p => !(pathRaises env p))).length) := by
  have h := (checksum_files_writer_and_raised env none paths pas errs place_state).1
  rw [h, checksumLoop_place_count env paths pas errs]

/-- C6: on path `a/b/f` with `a/b` missing while both `a` and `.` still
exist, the raised `PreviousFileNotFoundError` carries `filename2 = .`,
the farthest existing ancestor examined — although `a`, a still-existing
ancestor strictly nearer the path, exists — contradicting the
exception's own docstring ("the first parent path of filename which is
found to exist") and the specified nearest-existing-ancestor payload. -/
theorem C6_disconnection_carries_farthest_ancestor :
    _check_path_for_disconnection envGap ["a", "b", "f"]
      = some ⟨"A previously located file couldn't be located. Nothing beyond . could be found.",
              ["a", "b"], some []⟩
    ∧ envGap.pathExistsAt ["a"] = true
    ∧ (["a"] : FsPath) ≠ [] := by
  refine ⟨by decide, by decide, by decide⟩

/-- When every parent of the path still exists, the disconnection walk
never finds a missing parent and the check returns without raising. -/
lemma check_path_for_disconnection_none (env : Env) (p : FsPath)
    (h : ∀ par ∈ parents p, env.pathExistsAt par = true) :
    _check_path_for_disconnection env p = none := by
  have key : ∀ (ps : List FsPath) (l0 : Option FsPath),
      (∀ par ∈ ps, env.pathExistsAt par = true) →
      ps.foldl (disconnectionStep env) (none, l0) = (none, l0) := by
    intro ps
    induction ps with
    | nil => intro l0 _; rfl
    | cons q qs ih =>
        intro l0 hq
        have hqe : env.pathExistsAt q = true := hq q (by simp)
        have hstep : disconnectionStep env (none, l0) q = (none, l0) := by
          simp [disconnectionStep, hqe]
        rw [List.foldl_cons, hstep, ih l0 (fun par hp => hq par (by simp [hp]))]
  unfold _check_path_for_disconnection
  rw [key (parents p) none h]

/-- C7: a path whose open or read raises a permission failure, an
ordinary OS failure, or a not-found failure with every ancestor still
existing, has exactly its one error record — stamped with the wall-clock
time the environment reports for the failure — added to the matching
category's set; the operation returns normally (nothing raised, results
untouched), and the checksum loop then continues with the remaining
paths. -/
theorem C7_per_file_errors_recorded (env : Env) (file_path : FsPath)
    (results : List (FsPath × Nat)) (errs : OsErrors) (fn err : Option String) (t : Int) :
    (env.fs file_path = .permissionError fn err t →
      _checksum_file_and_store_outcome env file_path results errs =
        (results,
         { errs with permission_errors :=
             addToSet (pyOr fn (pathStr file_path), pyOr err "", t) errs.permission_errors },
         none))
    ∧ (env.fs file_path = .miscOSError fn err t →
      _checksum_file_and_store_outcome env file_path results errs =
        (results,
         { errs with misc_errors :=
             addToSet (pyOr fn (pathStr file_path), pyOr err "", t) errs.misc_errors },
         none))
    ∧ (env.fs file_path = .fileNotFoundError fn err t →
      (∀ par ∈ parents file_path, env.pathExistsAt par = true) →
      _checksum_file_and_store_outcome env file_path results errs =
        (results,
         { errs with file_not_found_errors :=
             addToSet (pyOr fn (pathStr file_path), pyOr err "", t) errs.file_not_found_errors },
         none))
    ∧ (∀ (rest : List FsPath) (s : LoopState),
        (_checksum_file_and_store_outcome env file_path s.pas s.os_errors).2.2 = none →
        checksumLoop env none (file_path :: rest) s =
          checksumLoop env none rest
            ⟨(_checksum_file_and_store_outcome env file_path s.pas s.os_errors).1,
             (_checksum_file_and_store_outcome env file_path s.pas s.os_errors).2.1,
             s.place + 1⟩) := by
  refine ⟨?_, ?_, ?_, ?_⟩
  · intro hfs; simp [_checksum_file_and_store_outcome, hfs]
  · intro hfs; simp [_checksum_file_and_store_outcome, hfs]
  · intro hfs hpar
    simp [_checksum_file_and_store_outcome, hfs,
      check_path_for_disconnection_none env file_path hpar]
  · intro rest s hnone
    rw [checksumLoop_cons, hnone]

/-- C7 (witness): in `envPerm`, the permission failure on `p` is
recorded in `permission_errors` and the not-found failure on `q` (whose
only parent, the root, exists) in `file_not_found_errors`; both return
without raising. -/
theorem C7_witness :
    _checksum_file_and_store_outcome envPerm ["p"] [] emptyOsErrors
      = ([], ⟨[("p", "denied", 3)], [], []⟩, none)
    ∧ _checksum_file_and_store_outcome envPerm ["q"] [] emptyOsErrors
      = ([], ⟨[], [("q", "", 4)], []⟩, none) :=
  ⟨(C7_per_file_errors_recorded envPerm ["p"] [] emptyOsErrors (some "p") (some "denied") 3).1 rfl,
   (C7_per_file_errors_recorded envPerm ["q"] [] emptyOsErrors none none 4).2.2.1 rfl
     (by decide)⟩

/-- C4: a cache file whose prefix read yields a creation time different
from the archive's fails the binding step with the `_ValidationError`
whose message names the remedy (move or delete the stale cache); the
branch exits early with it (return code 1), producing no archive/cache
pair to proceed with, so no fingerprinting can run on a mismatched
cache and the mismatch is never silently discarded or merged. -/
theorem C4_cache_mismatch_validated_early (archive : ArchiveItems) (file : CacheFileModel)
    (t : Int) (p : String)
    (hread : read_values_shared_by_an_archive_and_cache file.text = .ok (t, p))
    (hne : t ≠ archive.creation_time) :
    preChecksumReadArchiveBranch archive (some file) = .earlyExit staleCacheMessage 1 := by
  simp [preChecksumReadArchiveBranch, cacheReadAndSetSharedValues, hread, hne]

/-- C4 (witness): a cache whose document opens with creation time 100,
bound against an archive created at time 200, exits early with the
stale-cache message. -/
theorem C4_witness :
    preChecksumReadArchiveBranch archive200 (some ⟨cacheText100, none⟩)
      = .earlyExit staleCacheMessage 1 :=
  C4_cache_mismatch_validated_early archive200 ⟨cacheText100, none⟩ 100 "/x" rfl (by decide)

/-- Every failure of the bounded prefix read is the one plain
`ValueError` of line 87. -/
lemma read_values_error_is_valueError (fileText : String) (e : PyExn)
    (h : read_values_shared_by_an_archive_and_cache fileText = .error e) :
    e = .valueError sharedValuesErrorMessage := by
  unfold read_values_shared_by_an_archive_and_cache at h
  split at h
  · split at h
    · cases h; rfl
    · cases h
  · cases h; rfl

/-- C8 (counterexample): the cache file with contents `garbage` fails to
parse, yet the read-archive branch does not fail with the remedial
validation message: the bounded prefix read raises a plain `ValueError`
which the `except _ValidationError` clause cannot catch, so an
unclassified failure escapes, and its message is not the remedial
corrupted-cache message. -/
theorem C8_counterexample :
    preChecksumReadArchiveBranch archive200 (some ⟨"garbage", none⟩)
      = .uncaught (.valueError sharedValuesErrorMessage)
    ∧ sharedValuesErrorMessage ≠ corruptedCacheMessage := by
  refine ⟨rfl, by decide⟩

/-- C8 (amended): a cache whose full `json.load` read fails to parse is
reported with the specific remedial corrupted-cache message; but when
the bounded prefix read fails to parse, the failure propagates as the
plain `ValueError` unchanged — never as a validation error — because the
handler catches `_ValidationError`, which the prefix read never
raises. -/
theorem C8_corrupted_cache_message_full_read_only :
    (∀ file : CacheFileModel, file.parsed = none →
        cacheReadItemsFromFile file = .error (.validationError corruptedCacheMessage))
    ∧ (∀ (fileText : String) (v : Option Int) (e : PyExn),
        read_values_shared_by_an_archive_and_cache fileText = .error e →
        cacheReadAndSetSharedValues fileText v = .error e
          ∧ ∀ m, e ≠ .validationError m) := by
  constructor
  · intro file hf
    unfold cacheReadItemsFromFile
    rw [hf]
  · intro fileText v e h
    have he := read_values_error_is_valueError fileText e h
    subst he
    constructor
    · unfold cacheReadAndSetSharedValues
      rw [h]
    · intro m hm; cases hm

/-- C8 (witness): an unparseable full read yields the remedial
corrupted-cache validation error; the unparseable prefix read of
`garbage` yields the plain `ValueError`. -/
theorem C8_witness :
    cacheReadItemsFromFile ⟨"garbage", none⟩ = .error (.validationError corruptedCacheMessage)
    ∧ cacheReadAndSetSharedValues "garbage" (some 5)
      = .error (.valueError sharedValuesErrorMessage) :=
  ⟨C8_corrupted_cache_message_full_read_only.1 ⟨"garbage", none⟩ rfl,
   (C8_corrupted_cache_message_full_read_only.2 "garbage" (some 5)
      (.valueError sharedValuesErrorMessage) rfl).1⟩

/-- C5 (counterexample): scanning a root holding the dot-directory `.h`
(which contains the file `a`) and the empty directory `d`, the scanner's
output contains the directory `d` and the path `.h/a`, whose first
segment begins with a dot: the glob constrains only the final name
segment and does not exclude directories. -/
theorem C5_counterexample :
    (["d"], true) ∈ descendMany scanRoot0
    ∧ ["d"] ∈ _find_sub_paths scanRoot0
    ∧ [".h", "a"] ∈ _find_sub_paths scanRoot0
    ∧ (".h").data.head? = some '.' := by
  have h : descendMany scanRoot0 = [([".h"], true), ([".h", "a"], false), (["d"], true)] := by
    simp [scanRoot0, descendMany, descendOne]
  refine ⟨by rw [h]; decide, ?_, ?_, by decide⟩
  · simp only [_find_sub_paths, h]; decide
  · simp only [_find_sub_paths, h]; decide

/-- C5 (amended): what the scanner does exclude: every path it emits is
non-empty and its final name segment is non-empty and does not begin
with a dot.  (Directories and paths below dot-named directories are not
excluded here; directories are skipped later, at open time.) -/
theorem C5_scanner_filters_only_final_dot (root : List FsEntry) (p : FsPath)
    (hp : p ∈ _find_sub_paths root) :
    p ≠ [] ∧ (p.getLastD "") ≠ "" ∧ (p.getLastD "").data.head? ≠ some '.' := by
  unfold _find_sub_paths at hp
  rcases List.mem_map.mp hp with ⟨q, hq, rfl⟩
  have hfil : globFinalMatches q.1 = true := by
    have := List.mem_filter.mp hq
    simpa using this.2
  unfold globFinalMatches at hfil
  split at hfil
  · cases hfil
  · rename_i n hl
    split at hfil
    · cases hfil
    · rename_i c cs hd
      have hc : c ≠ '.' := by simpa using hfil
      have hlast : q.1.getLastD "" = n := by
        rw [List.getLastD_eq_getLast?, hl]; rfl
      refine ⟨?_, ?_, ?_⟩
      · intro hnil; rw [hnil] at hl; cases hl
      · rw [hlast]
        intro hn; rw [hn] at hd; cases hd
      · rw [hlast, hd]
        intro hcontra
        exact hc (Option.some.inj hcontra)

/-- C5 (witness): the directory path `d` is in the scanner's output for
`scanRoot0`, and indeed its final segment is non-empty and not
dot-initial. -/
theorem C5_witness :
    (["d"] : FsPath) ≠ []
    ∧ (["d"].getLastD "") ≠ ""
    ∧ (["d"].getLastD "").data.head? ≠ some '.' :=
  C5_scanner_filters_only_final_dot scanRoot0 ["d"]
    (by
      have h : descendMany scanRoot0
          = [([".h"], true), ([".h", "a"], false), (["d"], true)] := by
        simp [scanRoot0, descendMany, descendOne]
      simp only [_find_sub_paths, h]; decide)

lemma checksum_files_raised_eq (env : Env) (intr : Option Nat) (paths : List FsPath)
    (pas : List (FsPath × Nat)) (errs : OsErrors) (place_state : Nat) (writer : Bool) :
    (checksum_files env intr paths pas errs place_state writer).raised
      = (checksumLoop env intr paths ⟨pas, errs, 0⟩).2 := by
  cases hr : checksumLoop env intr paths ⟨pas, errs, 0⟩ with
  | mk s e => cases e <;> simp [checksum_files, hr]

lemma checksum_files_ret_eq (env : Env) (intr : Option Nat) (paths : List FsPath)
    (pas : List (FsPath × Nat)) (errs : OsErrors) (place_state : Nat) (writer : Bool) :
    (checksum_files env intr paths pas errs place_state writer).ret
      = (match (checksumLoop env intr paths ⟨pas, errs, 0⟩).2 with
         | some _ => none
         | none => some (sortLe pasLeB (checksumLoop env intr paths ⟨pas, errs, 0⟩).1.pas,
                         sortOsErrors (checksumLoop env intr paths ⟨pas, errs, 0⟩).1.os_errors)) := by
  cases hr : checksumLoop env intr paths ⟨pas, errs, 0⟩ with
  | mk s e => cases e <;> simp [checksum_files, hr]

/-- On set containers, the runtime-typed per-file operation agrees with
its set-container specialization: the fresh-run claims above lose
nothing by working with `_checksum_file_and_store_outcome`. -/
lemma perFile_rt_on_sets (env : Env) (p : FsPath) (res : List (FsPath × Nat)) (errs : OsErrors) :
    _checksum_file_and_store_outcome_rt env p res (setsOf errs)
      = ((_checksum_file_and_store_outcome env p res errs).1,
         setsOf (_checksum_file_and_store_outcome env p res errs).2.1,
         ((_checksum_file_and_store_outcome env p res errs).2.2).map RunExn.previousFileNotFound) := by
  cases h : env.fs p <;>
    simp [_checksum_file_and_store_outcome_rt, _checksum_file_and_store_outcome, h,
      containerAdd, setsOf]

lemma checksumLoopRT_nil (env : Env) (intr : Option Nat) (s : LoopStateRT) :
    checksumLoopRT env intr [] s = (s, none) := by
  cases intr with
  | none => rfl
  | some n => cases n <;> rfl

/-- On set containers, the runtime-typed loop agrees with `checksumLoop`
(whatever the interrupt point), with the exception embedded. -/
lemma checksumLoopRT_on_sets (env : Env) (l : List FsPath) :
    ∀ (intr : Option Nat) (pas : List (FsPath × Nat)) (errs : OsErrors) (pl : Nat),
      checksumLoopRT env intr l ⟨pas, setsOf errs, pl⟩
        = (⟨(checksumLoop env intr l ⟨pas, errs, pl⟩).1.pas,
            setsOf (checksumLoop env intr l ⟨pas, errs, pl⟩).1.os_errors,
            (checksumLoop env intr l ⟨pas, errs, pl⟩).1.place⟩,
           ((checksumLoop env intr l ⟨pas, errs, pl⟩).2).map loopExnToRunExn) := by
  induction l with
  | nil => intro intr pas errs pl; rw [checksumLoopRT_nil, checksumLoop_nil]; rfl
  | cons p rest ih =>
      intro intr pas errs pl
      match intr with
      | some 0 => rfl
      | none =>
          show (match (_checksum_file_and_store_outcome_rt env p pas (setsOf errs)).2.2 with
            | some e => ((⟨(_checksum_file_and_store_outcome_rt env p pas (setsOf errs)).1,
                          (_checksum_file_and_store_outcome_rt env p pas (setsOf errs)).2.1, pl⟩ : LoopStateRT),
                         some e)
            | none => checksumLoopRT env none rest
                ⟨(_checksum_file_and_store_outcome_rt env p pas (setsOf errs)).1,
                 (_checksum_file_and_store_outcome_rt env p pas (setsOf errs)).2.1, pl + 1⟩) = _
          rw [perFile_rt_on_sets, checksumLoop_cons]
          cases h : (_checksum_file_and_store_outcome env p pas errs).2.2 with
          | some e => simp [h, loopExnToRunExn]
          | none => simp only [h, Option.map_none', Option.map_some']; exact ih none _ _ _
      | some (n + 1) =>
          show (match (_checksum_file_and_store_outcome_rt env p pas (setsOf errs)).2.2 with
            | some e => ((⟨(_checksum_file_and_store_outcome_rt env p pas (setsOf errs)).1,
                          (_checksum_file_and_store_outcome_rt env p pas (setsOf errs)).2.1, pl⟩ : LoopStateRT),
                         some e)
            | none => checksumLoopRT env (some n) rest
                ⟨(_checksum_file_and_store_outcome_rt env p pas (setsOf errs)).1,
                 (_checksum_file_and_store_outcome_rt env p pas (setsOf errs)).2.1, pl + 1⟩) = _
          rw [perFile_rt_on_sets]
          have hc : checksumLoop env (some (n + 1)) (p :: rest) ⟨pas, errs, pl⟩
              = (match (_checksum_file_and_store_outcome env p pas errs).2.2 with
                 | some e =>
                     (⟨(_checksum_file_and_store_outcome env p pas errs).1,
                       (_checksum_file_and_store_outcome env p pas errs).2.1, pl⟩,
                      some (.previousFileNotFound e))
                 | none =>
                     checksumLoop env (some n) rest
                       ⟨(_checksum_file_and_store_outcome env p pas errs).1,
                        (_checksum_file_and_store_outcome env p pas errs).2.1, pl + 1⟩) := rfl
          rw [hc]
          cases h : (_checksum_file_and_store_outcome env p pas errs).2.2 with
          | some e => simp [h, loopExnToRunExn]
          | none => simp only [h, Option.map_none', Option.map_some']; exact ih (some n) _ _ _

/-- As `checksum_files_writer_and_raised`, for the runtime-typed run:
the writer fires in the `finally` block whatever stops the loop — an
`AttributeError` from a list container included — before the exception
propagates. -/
lemma checksum_files_rt_writer_and_raised (env : Env) (intr : Option Nat) (paths : List FsPath)
    (pas : List (FsPath × Nat)) (errs : OsErrorsRT) (place_state : Nat) :
    (checksum_files_rt env intr paths pas errs place_state true).writer_call
      = some ((checksumLoopRT env intr paths ⟨pas, errs, 0⟩).1.pas,
              (checksumLoopRT env intr paths ⟨pas, errs, 0⟩).1.os_errors,
              place_state + (checksumLoopRT env intr paths ⟨pas, errs, 0⟩).1.place)
    ∧ (checksum_files_rt env intr paths pas errs place_state true).raised
      = (checksumLoopRT env intr paths ⟨pas, errs, 0⟩).2 := by
  cases hr : checksumLoopRT env intr paths ⟨pas, errs, 0⟩ with
  | mk s e => cases e <;> simp [checksum_files_rt, hr]

/-- C1: resume correctness fails on the code — a code bug.  On the
archive `[a, b]` with `a` an empty readable file and `b`
permission-denied, the uninterrupted run (fresh dict-of-sets containers)
completes, returning `a`'s checksum and `b`'s recorded permission
error.  Resumed from a cache holding the first-1 results with
`place = 1`, the engine instead receives the cache-read `os_errors` as
a dict of lists (`read_items_from_file`, lines 197-200) although its
docstring requires sets; processing `b` then calls `.add` on a list,
which raises `AttributeError`: the resumed run crashes, returning
nothing, instead of matching the uninterrupted run. -/
theorem C1_resume_crashes_on_new_error :
    (checksum_files_rt envResume none
        (get_checksum_input_values [["a"], ["b"]] none).1
        (get_checksum_input_values [["a"], ["b"]] none).2.1
        (get_checksum_input_values [["a"], ["b"]] none).2.2.1
        (get_checksum_input_values [["a"], ["b"]] none).2.2.2
        false).ret
      = some ([(["a"], 0)], ⟨[("b", "denied", 9)], [], []⟩)
    ∧ (checksum_files_rt envResume none
        (get_checksum_input_values [["a"], ["b"]] none).1
        (get_checksum_input_values [["a"], ["b"]] none).2.1
        (get_checksum_input_values [["a"], ["b"]] none).2.2.1
        (get_checksum_input_values [["a"], ["b"]] none).2.2.2
        false).raised = none
    ∧ (checksum_files_rt envResume none
        (get_checksum_input_values [["a"], ["b"]] (some ⟨1, [(["a"], 0)], emptyOsErrors⟩)).1
        (get_checksum_input_values [["a"], ["b"]] (some ⟨1, [(["a"], 0)], emptyOsErrors⟩)).2.1
        (get_checksum_input_values [["a"], ["b"]] (some ⟨1, [(["a"], 0)], emptyOsErrors⟩)).2.2.1
        (get_checksum_input_values [["a"], ["b"]] (some ⟨1, [(["a"], 0)], emptyOsErrors⟩)).2.2.2
        false).ret = none
    ∧ (checksum_files_rt envResume none
        (get_checksum_input_values [["a"], ["b"]] (some ⟨1, [(["a"], 0)], emptyOsErrors⟩)).1
        (get_checksum_input_values [["a"], ["b"]] (some ⟨1, [(["a"], 0)], emptyOsErrors⟩)).2.1
        (get_checksum_input_values [["a"], ["b"]] (some ⟨1, [(["a"], 0)], emptyOsErrors⟩)).2.2.1
        (get_checksum_input_values [["a"], ["b"]] (some ⟨1, [(["a"], 0)], emptyOsErrors⟩)).2.2.2
        false).raised = some .attributeError := by
  refine ⟨by decide, by decide, by decide, by decide⟩

/-! ### Duplicate-grouper lemmas -/

lemma mem_addToSet {α : Type} [DecidableEq α] (x y : α) (l : List α) :
    x ∈ addToSet y l ↔ x = y ∨ x ∈ l := by
  unfold addToSet
  split
  · rename_i hy
    constructor
    · intro h; exact Or.inr h
    · rintro (rfl | h)
      · exact hy
      · exact h
  · simp [List.mem_append, or_comm]

lemma mem_addAll (x : FsPath) (qs : List FsPath) :
    ∀ vs, x ∈ addAll vs qs ↔ x ∈ vs ∨ x ∈ qs := by
  induction qs with
  | nil => intro vs; simp [addAll]
  | cons q qs ih =>
      intro vs
      show x ∈ addAll (addToSet q vs) qs ↔ _
      rw [ih, mem_addToSet]
      simp only [List.mem_cons]
      tauto

lemma mem_insertLe {α : Type} (le : α → α → Bool) (x y : α) (l : List α) :
    x ∈ insertLe le y l ↔ x = y ∨ x ∈ l := by
  induction l with
  | nil => simp [insertLe]
  | cons z zs ih =>
      unfold insertLe
      split
      · simp
      · simp only [List.mem_cons, ih]
        tauto

lemma mem_sortLe {α : Type} (le : α → α → Bool) (x : α) (l : List α) :
    x ∈ sortLe le l ↔ x ∈ l := by
  induction l with
  | nil => simp [sortLe]
  | cons z zs ih =>
      show x ∈ insertLe le z (sortLe le zs) ↔ _
      rw [mem_insertLe, ih]
      simp

lemma not_in_values_true_iff (d : Dupes) (v : FsPath) :
    not_in_values d v = true ↔ NotVal d v := by
  simp [not_in_values, NotVal, List.all_eq_true]

lemma not_in_values_false_iff (d : Dupes) (v : FsPath) :
    not_in_values d v = false ↔ ¬ NotVal d v := by
  rw [← not_in_values_true_iff]
  cases h : not_in_values d v <;> simp [h]

/-- In a list with duplicate-free keys, a key determines its pair. -/
lemma nodup_fst_unique {α β : Type} (l : List (α × β))
    (hnd : (l.map Prod.fst).Nodup) (a : α) (b b' : β)
    (h1 : (a, b) ∈ l) (h2 : (a, b') ∈ l) : b = b' := by
  induction l with
  | nil => cases h1
  | cons x xs ih =>
      rw [List.map_cons, List.nodup_cons] at hnd
      rcases List.mem_cons.mp h1 with hx1 | hx1 <;>
        rcases List.mem_cons.mp h2 with hx2 | hx2
      · exact congrArg Prod.snd (hx1.trans hx2.symm)
      · exfalso
        apply hnd.1
        rw [← hx1]
        exact List.mem_map.mpr ⟨(a, b'), hx2, rfl⟩
      · exfalso
        apply hnd.1
        rw [← hx2]
        exact List.mem_map.mpr ⟨(a, b), hx1, rfl⟩
      · exact ih hnd.2 hx1 hx2

lemma mem_matchesOf (q : FsPath) (c : Nat) (later : List (FsPath × Nat)) :
    q ∈ matchesOf c later ↔ (q, c) ∈ later := by
  constructor
  · intro h
    rcases List.mem_map.mp h with ⟨e, he, rfl⟩
    have hf := List.mem_filter.mp he
    have hc : e.2 = c := by simpa using hf.2
    rw [← hc]
    exact hf.1
  · intro h
    exact List.mem_map.mpr ⟨(q, c), List.mem_filter.mpr ⟨h, by simp⟩, rfl⟩

lemma matchesOf_mem_of (qc : FsPath × Nat) (c : Nat) (later : List (FsPath × Nat))
    (h : qc ∈ later) (hc : qc.2 = c) : qc.1 ∈ matchesOf c later :=
  List.mem_map.mpr ⟨qc, List.mem_filter.mpr ⟨h, by simp [hc]⟩, rfl⟩

lemma locateInner_nil (d : Dupes) (p : FsPath) (c : Nat) :
    locateInner d p c [] = d := rfl

lemma locateInner_cons (d : Dupes) (p : FsPath) (c : Nat) (e : FsPath × Nat)
    (rest : List (FsPath × Nat)) :
    locateInner d p c (e :: rest) =
      locateInner (if (e.2 == c) && not_in_values d p then dupesAdd d p e.1 else d)
        p c rest := rfl

/-- If the searched path is already somebody's value, the inner loop
adds nothing. -/
lemma locateInner_guard_false (p : FsPath) (c : Nat) :
    ∀ (later : List (FsPath × Nat)) (d : Dupes), not_in_values d p = false →
      locateInner d p c later = d := by
  intro later
  induction later with
  | nil => intro d _; rfl
  | cons e rest ih =>
      intro d h
      rw [locateInner_cons, h]
      simp only [Bool.and_false, if_neg Bool.false_ne_true]
      exact ih d h

lemma dupesAdd_fresh (d : Dupes) (key v : FsPath) (h : key ∉ d.map Prod.fst) :
    dupesAdd d key v = d ++ [(key, [v])] := by
  have hany : d.any (fun g => decide (g.1 = key)) = false := by
    rw [List.any_eq_false]
    intro g hg
    simp only [decide_eq_true_eq]
    intro hk
    exact h (List.mem_map.mpr ⟨g, hg, hk⟩)
  simp [dupesAdd, hany, addToSet]

/-- The per-key update map leaves every group whose key is different
untouched. -/
lemma map_update_id (key v : FsPath) :
    ∀ d : Dupes, key ∉ d.map Prod.fst →
      d.map (fun g => if g.1 = key then (g.1, addToSet v g.2) else g) = d := by
  intro d
  induction d with
  | nil => intro _; rfl
  | cons g gs ih =>
      intro h
      rw [List.map_cons, List.mem_cons] at h
      push_neg at h
      rw [List.map_cons, if_neg (fun hk => h.1 hk.symm), ih h.2]

lemma dupesAdd_last (d : Dupes) (key v : FsPath) (vs : List FsPath)
    (h : key ∉ d.map Prod.fst) :
    dupesAdd (d ++ [(key, vs)]) key v = d ++ [(key, addToSet v vs)] := by
  have hany : (d ++ [(key, vs)]).any (fun g => decide (g.1 = key)) = true := by
    rw [List.any_eq_true]
    exact ⟨(key, vs), by simp⟩
  unfold dupesAdd
  rw [if_pos hany, List.map_append, map_update_id key v d h]
  simp

/-- Closed form of the inner loop when the searched path's group sits at
the end of the mapping and the guard holds: every later entry matching
the checksum has its path folded into that group. -/
lemma locateInner_append_group (p : FsPath) (c : Nat) :
    ∀ (later : List (FsPath × Nat)) (d : Dupes) (vs : List FsPath),
      NotVal d p → p ∉ later.map Prod.fst → p ∉ vs → p ∉ d.map Prod.fst →
      locateInner (d ++ [(p, vs)]) p c later = d ++ [(p, addAll vs (matchesOf c later))] := by
  intro later
  induction later with
  | nil => intro d vs _ _ _ _; simp [locateInner_nil, matchesOf, addAll]
  | cons e rest ih =>
      intro d vs hnv hlater hvs hkeys
      have hguard : not_in_values (d ++ [(p, vs)]) p = true := by
        rw [not_in_values_true_iff]
        intro g hg
        rcases List.mem_append.mp hg with hg | hg
        · exact hnv g hg
        · simp only [List.mem_singleton] at hg
          rw [hg]
          exact hvs
      have hne : p ≠ e.1 := by
        intro hp
        exact hlater (by rw [hp]; exact List.mem_map.mpr ⟨e, by simp, rfl⟩)
      have hlater' : p ∉ rest.map Prod.fst := by
        intro hp
        rcases List.mem_map.mp hp with ⟨q, hq, hq1⟩
        exact hlater (List.mem_map.mpr ⟨q, by simp [hq], hq1⟩)
      rw [locateInner_cons]
      cases he : (e.2 == c) with
      | false =>
          simp only [Bool.false_and, if_neg Bool.false_ne_true]
          rw [ih d vs hnv hlater' hvs hkeys]
          have hm : matchesOf c (e :: rest) = matchesOf c rest := by
            simp [matchesOf, List.filter_cons, he]
          rw [hm]
      | true =>
          simp only [Bool.true_and]
          rw [hguard, if_pos rfl]
          rw [dupesAdd_last d p e.1 vs hkeys]
          rw [ih d (addToSet e.1 vs) hnv hlater'
            (by rw [mem_addToSet]; rintro (h | h); exact hne h; exact hvs h) hkeys]
          have hm : matchesOf c (e :: rest) = e.1 :: matchesOf c rest := by
            simp [matchesOf, List.filter_cons, he]
          rw [hm]
          rfl

/-- Closed form of the inner loop for a fresh key (guard holds, no
group yet): either no later entry matches and the mapping is unchanged,
or the key's group is appended holding every matching path. -/
lemma locateInner_fresh (p : FsPath) (c : Nat) :
    ∀ (later : List (FsPath × Nat)) (d : Dupes),
      NotVal d p → p ∉ later.map Prod.fst → p ∉ d.map Prod.fst →
      locateInner d p c later = d
        ∨ (matchesOf c later ≠ []
           ∧ locateInner d p c later = d ++ [(p, addAll [] (matchesOf c later))]) := by
  intro later
  induction later with
  | nil => intro d _ _ _; exact Or.inl rfl
  | cons e rest ih =>
      intro d hnv hlater hkeys
      have hguard : not_in_values d p = true := (not_in_values_true_iff d p).mpr hnv
      have hne : p ≠ e.1 := by
        intro hp
        exact hlater (by rw [hp]; exact List.mem_map.mpr ⟨e, by simp, rfl⟩)
      have hlater' : p ∉ rest.map Prod.fst := by
        intro hp
        rcases List.mem_map.mp hp with ⟨q, hq, hq1⟩
        exact hlater (List.mem_map.mpr ⟨q, by simp [hq], hq1⟩)
      rw [locateInner_cons]
      cases he : (e.2 == c) with
      | false =>
          simp only [Bool.false_and, if_neg Bool.false_ne_true]
          have hm : matchesOf c (e :: rest) = matchesOf c rest := by
            simp [matchesOf, List.filter_cons, he]
          rw [hm]
          exact ih d hnv hlater' hkeys
      | true =>
          simp only [Bool.true_and]
          rw [hguard, if_pos rfl]
          rw [dupesAdd_fresh d p e.1 hkeys]
          have hm : matchesOf c (e :: rest) = e.1 :: matchesOf c rest := by
            simp [matchesOf, List.filter_cons, he]
          right
          refine ⟨by rw [hm]; simp, ?_⟩
          rw [locateInner_append_group p c rest d [e.1] hnv hlater'
            (by simp [hne]) hkeys, hm]
          rfl

/-- The outer-loop invariant: with duplicate-free input paths, starting
from a mapping whose groups are pairwise disjoint, whose keys avoid the
pending paths, and in which a pending path that is still no-one's value
shares its checksum only with pending paths that are also no-one's
value, the final mapping's groups are pairwise disjoint. -/
lemma locateOuter_invariant :
    ∀ (S : List (FsPath × Nat)) (d : Dupes),
      (S.map Prod.fst).Nodup →
      GroupsDisjoint d →
      (∀ pc ∈ S, pc.1 ∉ d.map Prod.fst) →
      (∀ pc ∈ S, NotVal d pc.1 → ∀ qc ∈ S, qc.2 = pc.2 → NotVal d qc.1) →
      GroupsDisjoint (locateOuter S d) := by
  intro S
  induction S with
  | nil => intro d _ h _ _; exact h
  | cons pc rest ih =>
      intro d hnd hdisj hkeys hlink
      rw [List.map_cons, List.nodup_cons] at hnd
      show GroupsDisjoint (locateOuter rest (locateInner d pc.1 pc.2 rest))
      cases hval : not_in_values d pc.1 with
      | false =>
          rw [locateInner_guard_false pc.1 pc.2 rest d hval]
          exact ih d hnd.2 hdisj
            (fun qc hq => hkeys qc (by simp [hq]))
            (fun qc hq hnv rc hr hc =>
              hlink qc (by simp [hq]) hnv rc (by simp [hr]) hc)
      | true =>
          have hnv : NotVal d pc.1 := (not_in_values_true_iff d pc.1).mp hval
          have hkeyhead : pc.1 ∉ d.map Prod.fst := hkeys pc (by simp)
          rcases locateInner_fresh pc.1 pc.2 rest d hnv hnd.1 hkeyhead with
            heq | ⟨hne, heq⟩
          · rw [heq]
            exact ih d hnd.2 hdisj
              (fun qc hq => hkeys qc (by simp [hq]))
              (fun qc hq hnvq rc hr hc =>
                hlink qc (by simp [hq]) hnvq rc (by simp [hr]) hc)
          · rw [heq]
            -- every member of the new group is a pending same-checksum path
            have hvsAll : ∀ q, q ∈ addAll [] (matchesOf pc.2 rest) → (q, pc.2) ∈ rest := by
              intro q hq
              rw [mem_addAll] at hq
              rcases hq with hq | hq
              · cases hq
              · exact (mem_matchesOf q pc.2 rest).mp hq
            -- and those paths are still no-one's value
            have hfree : ∀ q, q ∈ addAll [] (matchesOf pc.2 rest) → NotVal d q := by
              intro q hq
              exact hlink pc (List.mem_cons_self pc rest) hnv (q, pc.2)
                (List.mem_cons_of_mem pc (hvsAll q hq)) rfl
            apply ih
            · exact hnd.2
            · -- disjointness of d ++ [(pc.1, new group)]
              rw [GroupsDisjoint, List.pairwise_append]
              refine ⟨hdisj, List.pairwise_singleton _ _, ?_⟩
              intro g hg g' hg' v hv
              simp only [List.mem_singleton] at hg'
              rw [hg']
              intro hvnew
              exact hfree v hvnew g hg hv
            · intro qc hq
              rw [List.map_append]
              intro hmem
              rcases List.mem_append.mp hmem with h | h
              · exact hkeys qc (by simp [hq]) h
              · simp only [List.map_cons, List.map_nil, List.mem_singleton] at h
                exact hnd.1 (h ▸ List.mem_map.mpr ⟨qc, hq, rfl⟩)
            · -- the linking invariant for the extended mapping
              intro qc hq hnvq rc hr hc
              have hnvq' : NotVal d qc.1 ∧ qc.1 ∉ addAll [] (matchesOf pc.2 rest) := by
                constructor
                · intro g hg
                  exact hnvq g (List.mem_append.mpr (Or.inl hg))
                · intro hmem
                  exact hnvq (pc.1, addAll [] (matchesOf pc.2 rest))
                    (List.mem_append.mpr (Or.inr (by simp))) hmem
              have hq2 : qc.2 ≠ pc.2 := by
                intro hqc
                exact hnvq'.2 ((mem_addAll qc.1 (matchesOf pc.2 rest) []).mpr
                  (Or.inr (matchesOf_mem_of qc pc.2 rest hq hqc)))
              have hrc : NotVal d rc.1 :=
                hlink qc (by simp [hq]) hnvq'.1 rc (by simp [hr]) hc
              intro g hg
              rcases List.mem_append.mp hg with hgd | hgnew
              · exact hrc g hgd
              · simp only [List.mem_singleton] at hgnew
                rw [hgnew]
                intro hmem
                have hrcmem : (rc.1, pc.2) ∈ rest := hvsAll rc.1 hmem
                have : pc.2 = rc.2 := nodup_fst_unique rest hnd.2 rc.1 pc.2 rc.2 hrcmem (by simpa using hr)
                exact hq2 ((this.trans hc).symm)

/-- C2 (counterexample): on the input
`[(a,1),(b,1),(c,2),(b,2)]` — the path `b` listed twice with different
fingerprints — the grouper classifies `b` as a duplicate of both `a` and
`c`: the invariant as claimed, over every input, fails (the guard checks
the key being searched, not the value being added). -/
theorem C2_counterexample :
    locate_dupes [(["a"], 1), (["b"], 1), (["c"], 2), (["b"], 2)]
      = [(["a"], [["b"]]), (["c"], [["b"]])]
    ∧ ¬ List.Pairwise (fun g h => ∀ v ∈ g.2, v ∉ h.2)
        (locate_dupes [(["a"], 1), (["b"], 1), (["c"], 2), (["b"], 2)]) := by
  constructor
  · decide
  · intro h
    rw [show locate_dupes [(["a"], 1), (["b"], 1), (["c"], 2), (["b"], 2)]
        = [(["a"], [["b"]]), (["c"], [["b"]])] from by decide] at h
    exact (List.pairwise_cons.mp h).1 (["c"], [["b"]]) (by simp) ["b"] (by simp) (by simp)

/-- C2 (amended): whenever the input's paths are pairwise distinct — as
they are for any checksummed scan — no path occurs in the value list of
more than one key of the mapping `locate_dupes` produces. -/
theorem C2_no_path_in_two_groups (paths_and_sums : List (FsPath × Nat))
    (hnd : (paths_and_sums.map Prod.fst).Nodup) :
    List.Pairwise (fun g h => ∀ v ∈ g.2, v ∉ h.2) (locate_dupes paths_and_sums) := by
  have hmain : GroupsDisjoint (locateOuter paths_and_sums []) := by
    apply locateOuter_invariant paths_and_sums [] hnd
    · exact List.Pairwise.nil
    · intro pc _; simp
    · intro pc _ _ qc _ _ g hg; cases hg
  unfold locate_dupes sort_values
  rw [List.pairwise_map]
  apply hmain.imp
  intro g h hgh v hv
  rw [mem_sortLe] at hv
  rw [mem_sortLe]
  exact hgh v hv

/-- C2 (witness): on the duplicate-free input `[(a,1),(b,1),(c,1)]` the
produced mapping's groups are pairwise disjoint. -/
theorem C2_witness :
    List.Pairwise (fun g h => ∀ v ∈ g.2, v ∉ h.2)
      (locate_dupes [(["a"], 1), (["b"], 1), (["c"], 1)]) :=
  C2_no_path_in_two_groups [(["a"], 1), (["b"], 1), (["c"], 1)] (by decide)

end Listdupes
